import Mathlib

/-!
Verification development for the bounded-concurrency YouTube playlist
downloader (`main.go`).  The program's pure logic (format selection,
file-name sanitisation, CLI parsing, summary computation) is embedded as
executable Lean functions over `List Char` strings; the concurrent
orchestration (`DownloadPlaylist`, lines 55-97) is embedded as explicit
small-step transition systems: one for the admission gate (the buffered
channel `semaphore`), and one for the unsynchronized append to the shared
`failedDownloads` slice performed by the worker goroutines.
-/

namespace YTDL

/-- One fetchable representation of a video: the fields of
`youtube.Format` that `main.go` inspects (`MimeType`, `Quality`,
`AudioChannels`).  Strings are modelled as `List Char`. -/
structure Format where
  mimeType : List Char
  quality : List Char
  audioChannels : Int
deriving DecidableEq

/-- `strings.HasPrefix`: `startsWith pat s` is true when `s` begins with
`pat` (argument order: pattern first). -/
def startsWith : List Char → List Char → Bool
  | [], _ => true
  | _ :: _, [] => false
  | p :: ps, c :: cs => p == c && startsWith ps cs

/-- First loop of `selectBestAudioFormat` (main.go lines 148-152): the
first format whose MimeType begins with `audio/`. -/
def firstAudioOnly : List Format → Option Format
  | [] => none
  | f :: rest => if startsWith "audio/".data f.mimeType then some f else firstAudioOnly rest

/-- Second loop of `selectBestAudioFormat` (main.go lines 154-158): the
first format with `AudioChannels > 0`. -/
def firstWithAudioChannels : List Format → Option Format
  | [] => none
  | f :: rest => if 0 < f.audioChannels then some f else firstWithAudioChannels rest

/-- `selectBestAudioFormat` (main.go lines 146-160): audio-only pass,
then the audio-channel fallback pass, else `nil` (here `none`). -/
def selectBestAudioFormat (formats : List Format) : Option Format :=
  match firstAudioOnly formats with
  | some f => some f
  | none => firstWithAudioChannels formats

/-- The loop of `selectBestVideoFormat` (main.go lines 165-174), with the
running `bestFormat` as accumulator: a format whose MimeType begins with
`video/` replaces the accumulator when the accumulator is `nil` or the
format's Quality is not `"tiny"`. -/
def selectVideoLoop : List Format → Option Format → Option Format
  | [], best => best
  | f :: rest, best =>
    if startsWith "video/".data f.mimeType then
      match best with
      | none => selectVideoLoop rest (some f)
      | some b =>
        if f.quality = "tiny".data then selectVideoLoop rest (some b)
        else selectVideoLoop rest (some f)
    else selectVideoLoop rest best

/-- `selectBestVideoFormat` (main.go lines 162-177). -/
def selectBestVideoFormat (formats : List Format) : Option Format :=
  selectVideoLoop formats none

/-- Result of `selectFormat` (main.go lines 135-144).  The Go function
returns `*youtube.Format`; `nil` is `notFound`.  In the `default` branch
the Go code evaluates `&video.Formats[0]`, which panics with an
index-out-of-range runtime error when `Formats` is empty; the `panicked`
constructor records that abnormal termination. -/
inductive SelectResult where
  | found : Format → SelectResult
  | notFound : SelectResult
  | panicked : SelectResult
deriving DecidableEq

/-- Lift the `*Format`/`nil` convention of the two selectors. -/
def optToResult : Option Format → SelectResult
  | some f => SelectResult.found f
  | none => SelectResult.notFound

/-- `selectFormat` (main.go lines 135-144): switch on
`config.DownloadType`; the `default` branch takes `&video.Formats[0]`,
panicking on an empty format list. -/
def selectFormat (downloadType : List Char) (formats : List Format) : SelectResult :=
  if downloadType = "audio".data then optToResult (selectBestAudioFormat formats)
  else if downloadType = "video".data then optToResult (selectBestVideoFormat formats)
  else
    match formats with
    | [] => SelectResult.panicked
    | f :: _ => SelectResult.found f

/-- Policy of the audio mode as the specification states it: first
descriptor whose media-type begins with `audio/`; failing that, first
descriptor whose audio-channel count is greater than zero; else none. -/
def audioPolicySpec (formats : List Format) : Option Format :=
  match formats.find? (fun f => startsWith "audio/".data f.mimeType) with
  | some f => some f
  | none => formats.find? (fun f => decide (0 < f.audioChannels))

/-- Media-type begins with `video/`. -/
def isVideoFmt (f : Format) : Bool :=
  startsWith "video/".data f.mimeType

/-- Video descriptor whose quality label is not the `"tiny"` sentinel. -/
def isNonTinyVideo (f : Format) : Bool :=
  isVideoFmt f && !(decide (f.quality = "tiny".data))

/-- Last element of the list satisfying the predicate, if any. -/
def findLastFmt (p : Format → Bool) : List Format → Option Format
  | [] => none
  | f :: rest =>
    match findLastFmt p rest with
    | some g => some g
    | none => if p f then some f else none

/-- Policy of the video mode as the specification's "net effect" states
it: the last non-`tiny` video descriptor in sequence order; failing
that, the first video descriptor; else none. -/
def videoPolicySpec (formats : List Format) : Option Format :=
  match findLastFmt isNonTinyVideo formats with
  | some g => some g
  | none => formats.find? isVideoFmt

/-- The nine characters `sanitizeFileName` replaces (main.go line 195). -/
def invalidChars : List Char := ['\\', '/', ':', '*', '?', '\"', '<', '>', '|']

/-- `strings.ReplaceAll(name, string(old), "_")` for a one-character
pattern: every occurrence of `old` becomes `'_'`. -/
def replaceAllChar (s : List Char) (old : Char) : List Char :=
  s.map (fun c => if c = old then '_' else c)

/-- The replacement loop of `sanitizeFileName` (main.go lines 196-198):
successive `ReplaceAll` over the nine invalid characters. -/
def replaceInvalid (s : List Char) : List Char :=
  invalidChars.foldl replaceAllChar s

/-- The truncation step of `sanitizeFileName` (main.go lines 199-201):
`if len(name) > 100 { name = name[:100] }`.  The Go code counts bytes;
this model counts characters, which agrees on ASCII titles. -/
def truncate100 (s : List Char) : List Char :=
  if s.length > 100 then s.take 100 else s

/-- Go's `unicode.IsSpace` on the characters of `White_Space`. -/
def goIsSpace (c : Char) : Bool :=
  let n := c.toNat
  (0x9 ≤ n && n ≤ 0xD) || n = 0x20 || n = 0x85 || n = 0xA0 || n = 0x1680 ||
  (0x2000 ≤ n && n ≤ 0x200A) || n = 0x2028 || n = 0x2029 || n = 0x202F ||
  n = 0x205F || n = 0x3000

/-- Drop the longest suffix whose elements satisfy `p`. -/
def dropWhileEnd {α : Type} (p : α → Bool) (l : List α) : List α :=
  (l.reverse.dropWhile p).reverse

/-- `strings.TrimSpace` (main.go line 202): trim leading and trailing
white space. -/
def trimSpace (s : List Char) : List Char :=
  dropWhileEnd goIsSpace (s.dropWhile goIsSpace)

/-- `sanitizeFileName` (main.go lines 194-203): replace the nine invalid
characters by `'_'`, truncate to at most 100 characters, trim
surrounding white space. -/
def sanitizeFileName (s : List Char) : List Char :=
  trimSpace (truncate100 (replaceInvalid s))

/-- Substitution performed (pointwise) by the replacement loop: an
invalid character becomes `'_'`, anything else is kept. -/
def substIn (l : List Char) (c : Char) : Char :=
  if c ∈ l then '_' else c

/-- The pointwise substitution of `replaceInvalid`. -/
def substChar (c : Char) : Char :=
  substIn invalidChars c

/-- `DownloadConfig` (main.go lines 16-21).  `Parallel` is a Go `int`,
modelled as `Int`. -/
structure DownloadConfig where
  OutputDir : List Char
  DownloadType : List Char
  MaxQuality : List Char
  Parallel : Int
deriving DecidableEq

/-- The configuration built in `main` before flag parsing (main.go
lines 212-216); `MaxQuality` keeps its zero value. -/
def defaultConfig : DownloadConfig :=
  ⟨"./downloads".data, "video".data, [], 3⟩

/-- ASCII decimal digit test. -/
def isDigit (c : Char) : Bool :=
  '0' ≤ c && c ≤ '9'

/-- Value of a digit string. -/
def digitsToNat (l : List Char) : Nat :=
  l.foldl (fun acc c => acc * 10 + (c.toNat - 48)) 0

/-- `strconv.Atoi`: optional sign followed by at least one digit, and
nothing else; anything else is an error (`none`).  Overflow is not
modelled. -/
def goAtoi (s : List Char) : Option Int :=
  match s with
  | [] => none
  | '+' :: rest =>
    if rest = [] then none
    else if rest.all isDigit then some (digitsToNat rest) else none
  | '-' :: rest =>
    if rest = [] then none
    else if rest.all isDigit then some (-(digitsToNat rest : Int)) else none
  | l => if l.all isDigit then some (digitsToNat l) else none

/-- The flag-parsing loop of `main` (main.go lines 219-239) over the
arguments after the playlist URL: a recognised flag with a following
value consumes both; a recognised flag at the end of the list, or an
unrecognised argument, is skipped.  A `--parallel` value `Atoi` cannot
parse is silently ignored. -/
def parseArgs : List (List Char) → DownloadConfig → DownloadConfig
  | [], c => c
  | a :: rest, c =>
    if a = "-o".data ∨ a = "--output".data then
      match rest with
      | v :: rest2 => parseArgs rest2 ⟨v, c.DownloadType, c.MaxQuality, c.Parallel⟩
      | [] => c
    else if a = "-t".data ∨ a = "--type".data then
      match rest with
      | v :: rest2 => parseArgs rest2 ⟨c.OutputDir, v, c.MaxQuality, c.Parallel⟩
      | [] => c
    else if a = "-p".data ∨ a = "--parallel".data then
      match rest with
      | v :: rest2 =>
        parseArgs rest2
          (match goAtoi v with
           | some n => ⟨c.OutputDir, c.DownloadType, c.MaxQuality, n⟩
           | none => c)
      | [] => c
    else parseArgs rest c

/-- Outcome of the startup phase of `main` (main.go lines 205-245):
usage error on a missing playlist argument (exit 1), error on an invalid
download type (exit 1), otherwise the program proceeds with the parsed
configuration — no further validation is performed. -/
inductive StartupResult where
  | exitUsage : StartupResult
  | exitBadType : StartupResult
  | proceed : DownloadConfig → StartupResult
deriving DecidableEq

/-- The startup phase of `main`: `os.Args` (program name included) in,
either an early exit or the configuration the run proceeds with. -/
def startup (argv : List (List Char)) : StartupResult :=
  if argv.length < 2 then StartupResult.exitUsage
  else
    let c := parseArgs (argv.drop 2) defaultConfig
    if c.DownloadType ≠ "audio".data ∧ c.DownloadType ≠ "video".data then
      StartupResult.exitBadType
    else StartupResult.proceed c

/-- A `youtube.PlaylistEntry`: identifier and display title. -/
structure Video where
  id : List Char
  title : List Char
deriving DecidableEq

/-- The printed run summary (main.go lines 85-95). -/
structure Summary where
  total : Nat
  successful : Nat
  failed : Nat
  failedTitles : List (List Char)
deriving DecidableEq

/-- `DownloadPlaylist`'s summary arithmetic (main.go lines 86-95):
`Successful` is `total - len(failedDownloads)`, `Failed` is
`len(failedDownloads)`, and the failed titles are listed as collected. -/
def summaryOfRun (total : Nat) (failedList : List (List Char)) : Summary :=
  ⟨total, total - failedList.length, failedList.length, failedList⟩

/-- `DownloadPlaylist` (main.go lines 38-98) at the error-propagation
level: a playlist-resolution failure or an output-directory-creation
failure is returned as an error; otherwise every item is processed and
the function returns normally (`ok`) whatever the per-item results
`res` are.  The failed-title list here is the race-free abstraction of
the shared-slice collection (see the race model below for the
unsynchronized append itself). -/
def downloadPlaylistModel (pres : Except (List Char) (List Video)) (mkdirOk : Bool)
    (res : Video → Bool) : Except (List Char) Summary :=
  match pres with
  | Except.error e => Except.error ("failed to get playlist: ".data ++ e)
  | Except.ok vids =>
    if mkdirOk then
      Except.ok (summaryOfRun vids.length
        ((vids.filter (fun v => !(res v))).map (fun v => v.title)))
    else Except.error "failed to create output directory".data

/-- Process exit code of `main` (main.go lines 205-258): 1 from the
usage or type check, 1 from `log.Fatal` when `DownloadPlaylist` returns
an error, 0 otherwise. -/
def mainExit (argv : List (List Char)) (pres : Except (List Char) (List Video))
    (mkdirOk : Bool) (res : Video → Bool) : Nat :=
  match startup argv with
  | StartupResult.exitUsage => 1
  | StartupResult.exitBadType => 1
  | StartupResult.proceed _ =>
    match downloadPlaylistModel pres mkdirOk res with
    | Except.error _ => 1
    | Except.ok _ => 0

/-- Counting state of the worker pool of `DownloadPlaylist` (main.go
lines 55-82): `launched` tasks have completed the `semaphore` send of
line 61 (each holds one gate slot and is inside the item pipeline),
`finished` tasks have executed the deferred receive of line 65. -/
structure OrchState where
  launched : Nat
  finished : Nat
deriving DecidableEq

/-- Transitions of the pool with gate capacity `P` and `N` playlist
items: a new task is admitted only while the buffered channel has room
(`launched - finished < P`); any admitted task may finish and release
its slot. -/
inductive OrchStep (P N : Nat) : OrchState → OrchState → Prop
  | launch (s : OrchState) (hN : s.launched < N) (hP : s.launched - s.finished < P) :
      OrchStep P N s ⟨s.launched + 1, s.finished⟩
  | finish (s : OrchState) (hf : s.finished < s.launched) :
      OrchStep P N s ⟨s.launched, s.finished + 1⟩

/-- States the pool can reach from the start of the run. -/
def OrchReach (P N : Nat) : OrchState → Prop :=
  Relation.ReflTransGen (OrchStep P N) ⟨0, 0⟩

/-- One worker goroutine of `DownloadPlaylist` (main.go lines 63-79),
restricted to the failure path: `pc = 0` not yet admitted, `1` admitted
(holding a gate slot, download failed), `2` has read the shared
`failedDownloads` slice into `snap` (the read half of the `append` of
line 75), `3` has written `snap ++ [title]` back, `4` has released its
slot. -/
structure WState where
  pc : Nat
  snap : List (List Char)
deriving DecidableEq

/-- Shared state of a two-item run: the gate occupancy, the shared
`failedDownloads` slice, and the two workers.  No lock protects the
read-modify-write of the append. -/
structure RState where
  gate : Nat
  shared : List (List Char)
  w1 : WState
  w2 : WState
deriving DecidableEq

/-- Interleaving semantics of the two worker goroutines with failed
titles `t1`, `t2` and gate capacity `P`.  Admission requires a free
gate slot; worker 2 is launched after worker 1 (playlist order); the
append is the unsynchronized two-step read/write the Go code performs
on the shared slice. -/
inductive RStep (P : Nat) (t1 t2 : List Char) : RState → RState → Prop
  | admit1 (s : RState) (h : s.w1.pc = 0) (hg : s.gate < P) :
      RStep P t1 t2 s ⟨s.gate + 1, s.shared, ⟨1, s.w1.snap⟩, s.w2⟩
  | read1 (s : RState) (h : s.w1.pc = 1) :
      RStep P t1 t2 s ⟨s.gate, s.shared, ⟨2, s.shared⟩, s.w2⟩
  | write1 (s : RState) (h : s.w1.pc = 2) :
      RStep P t1 t2 s ⟨s.gate, s.w1.snap ++ [t1], ⟨3, s.w1.snap⟩, s.w2⟩
  | release1 (s : RState) (h : s.w1.pc = 3) :
      RStep P t1 t2 s ⟨s.gate - 1, s.shared, ⟨4, s.w1.snap⟩, s.w2⟩
  | admit2 (s : RState) (h : s.w2.pc = 0) (hg : s.gate < P) (hord : 1 ≤ s.w1.pc) :
      RStep P t1 t2 s ⟨s.gate + 1, s.shared, s.w1, ⟨1, s.w2.snap⟩⟩
  | read2 (s : RState) (h : s.w2.pc = 1) :
      RStep P t1 t2 s ⟨s.gate, s.shared, s.w1, ⟨2, s.shared⟩⟩
  | write2 (s : RState) (h : s.w2.pc = 2) :
      RStep P t1 t2 s ⟨s.gate, s.w2.snap ++ [t2], s.w1, ⟨3, s.w2.snap⟩⟩
  | release2 (s : RState) (h : s.w2.pc = 3) :
      RStep P t1 t2 s ⟨s.gate - 1, s.shared, s.w1, ⟨4, s.w2.snap⟩⟩

/-- Initial state: empty `failedDownloads`, nobody admitted. -/
def raceInit : RState := ⟨0, [], ⟨0, []⟩, ⟨0, []⟩⟩

/-- States a two-item run can reach. -/
def RReach (P : Nat) (t1 t2 : List Char) : RState → Prop :=
  Relation.ReflTransGen (RStep P t1 t2) raceInit

/-- Failed title of the first playlist item. -/
def titleA : List Char := "Video A".data

/-- Failed title of the second playlist item. -/
def titleB : List Char := "Video B".data

/-- Both workers admitted and both holding the snapshot `[]` of the
shared slice: both are inside the append concurrently. -/
def raceMid : RState := ⟨2, [], ⟨2, []⟩, ⟨2, []⟩⟩

/-- Completed run in which worker 2's write clobbered worker 1's:
only `titleB` survives in `failedDownloads`. -/
def raceFinal : RState := ⟨0, [titleB], ⟨4, []⟩, ⟨4, []⟩⟩

/-- A 102-character title whose first 100 characters are spaces. -/
def longSpaces : List Char := List.replicate 100 ' ' ++ "ab".data

/-! ## Format selector -/

theorem firstAudioOnly_eq_find (l : List Format) :
    firstAudioOnly l = l.find? (fun f => startsWith "audio/".data f.mimeType) := by
  induction l with
  | nil => rfl
  | cons f rest ih =>
    by_cases h : startsWith "audio/".data f.mimeType = true
    · simp [firstAudioOnly, h]
    · simp [firstAudioOnly, h, ih]

theorem firstWithAudioChannels_eq_find (l : List Format) :
    firstWithAudioChannels l = l.find? (fun f => decide (0 < f.audioChannels)) := by
  induction l with
  | nil => rfl
  | cons f rest ih =>
    by_cases h : 0 < f.audioChannels
    · simp [firstWithAudioChannels, h]
    · simp [firstWithAudioChannels, h, ih]

theorem selectVideoLoop_spec (l : List Format) : ∀ best : Option Format,
    selectVideoLoop l best =
      match findLastFmt isNonTinyVideo l with
      | some g => some g
      | none =>
        match best with
        | some b => some b
        | none => l.find? isVideoFmt := by
  induction l with
  | nil => intro best; cases best <;> rfl
  | cons f rest ih =>
    intro best
    by_cases hv : startsWith "video/".data f.mimeType = true
    · by_cases ht : f.quality = "tiny".data
      · have hnt : isNonTinyVideo f = false := by
          simp [isNonTinyVideo, isVideoFmt, hv, ht]
        cases best with
        | none =>
          cases hFL : findLastFmt isNonTinyVideo rest <;>
            simp [selectVideoLoop, findLastFmt, hv, ht, ih, hFL, hnt,
              List.find?_cons_of_pos, isVideoFmt]
        | some b =>
          cases hFL : findLastFmt isNonTinyVideo rest <;>
            simp [selectVideoLoop, findLastFmt, hv, ht, ih, hFL, hnt]
      · have hnt : isNonTinyVideo f = true := by
          simp [isNonTinyVideo, isVideoFmt, hv, ht]
        cases best with
        | none =>
          cases hFL : findLastFmt isNonTinyVideo rest <;>
            simp [selectVideoLoop, findLastFmt, hv, ht, ih, hFL, hnt]
        | some b =>
          cases hFL : findLastFmt isNonTinyVideo rest <;>
            simp [selectVideoLoop, findLastFmt, hv, ht, ih, hFL, hnt]
    · have hnt : isNonTinyVideo f = false := by
        simp [isNonTinyVideo, isVideoFmt, hv]
      cases best with
      | none =>
        cases hFL : findLastFmt isNonTinyVideo rest <;>
          simp [selectVideoLoop, findLastFmt, hv, ih, hFL, hnt, isVideoFmt]
      | some b =>
        cases hFL : findLastFmt isNonTinyVideo rest <;>
          simp [selectVideoLoop, findLastFmt, hv, ih, hFL, hnt]

theorem findLastFmt_none_of_find?_none (l : List Format)
    (h : l.find? isVideoFmt = none) : findLastFmt isNonTinyVideo l = none := by
  induction l with
  | nil => rfl
  | cons f rest ih =>
    rw [List.find?_cons] at h
    cases hv : isVideoFmt f with
    | true => simp [hv] at h
    | false =>
      simp only [hv] at h
      have hnt : isNonTinyVideo f = false := by simp [isNonTinyVideo, hv]
      simp [findLastFmt, ih h, hnt]

/-- Claim C1: in audio mode the selector returns the first descriptor
whose media-type begins with `audio/`; failing that, the first
descriptor with a positive audio-channel count; failing that, none.  In
particular on `[{video/mp4, channels:2}, {audio/mp4, channels:2}]` it
selects the `audio/mp4` entry although the video descriptor comes first
and has audio channels. -/
theorem selectBestAudioFormat_spec :
    (∀ fs : List Format, selectBestAudioFormat fs = audioPolicySpec fs)
    ∧ selectBestAudioFormat
        [⟨"video/mp4".data, "medium".data, 2⟩, ⟨"audio/mp4".data, "medium".data, 2⟩]
      = some ⟨"audio/mp4".data, "medium".data, 2⟩ := by
  constructor
  · intro fs
    unfold selectBestAudioFormat audioPolicySpec
    rw [firstAudioOnly_eq_find, firstWithAudioChannels_eq_find]
  · decide

/-- Claim C2, counterexample: on two `tiny`-quality video descriptors
the selector returns the first of them, a `tiny` descriptor that is not
the only video descriptor present — refuting "falls back to a tiny
descriptor only if it is the only video descriptor present". -/
theorem selectBestVideoFormat_tiny_cex :
    selectBestVideoFormat
        [⟨"video/mp4".data, "tiny".data, 1⟩, ⟨"video/mp4".data, "tiny".data, 2⟩]
      = some ⟨"video/mp4".data, "tiny".data, 1⟩
    ∧ Format.quality ⟨"video/mp4".data, "tiny".data, 1⟩ = "tiny".data
    ∧ List.countP isVideoFmt
        [⟨"video/mp4".data, "tiny".data, 1⟩, ⟨"video/mp4".data, "tiny".data, 2⟩] = 2 := by
  decide

/-- Claim C2 as amended: in video mode the selector returns the last
video descriptor whose quality is not `tiny`; when every video
descriptor is `tiny` it returns the first video descriptor (even when
several are present); it returns none exactly when no descriptor's
media-type begins with `video/`.  The claim's two examples hold. -/
theorem selectBestVideoFormat_spec :
    (∀ fs : List Format, selectBestVideoFormat fs = videoPolicySpec fs)
    ∧ selectBestVideoFormat
        [⟨"video/mp4".data, "tiny".data, 0⟩, ⟨"video/webm".data, "medium".data, 0⟩,
         ⟨"video/mp4".data, "tiny".data, 0⟩]
      = some ⟨"video/webm".data, "medium".data, 0⟩
    ∧ selectBestVideoFormat [⟨"video/mp4".data, "tiny".data, 0⟩]
      = some ⟨"video/mp4".data, "tiny".data, 0⟩
    ∧ (∀ fs : List Format, selectBestVideoFormat fs = none ↔ fs.find? isVideoFmt = none) := by
  have hmain : ∀ fs : List Format, selectBestVideoFormat fs = videoPolicySpec fs := by
    intro fs
    have h := selectVideoLoop_spec fs none
    unfold selectBestVideoFormat videoPolicySpec
    rw [h]
  refine ⟨hmain, by decide, by decide, ?_⟩
  intro fs
  rw [hmain]
  unfold videoPolicySpec
  constructor
  · intro h
    cases hFL : findLastFmt isNonTinyVideo fs with
    | some g => rw [hFL] at h; exact absurd h (by simp)
    | none => rw [hFL] at h; exact h
  · intro h
    rw [findLastFmt_none_of_find?_none fs h, h]

/-- Claim C9, counterexample: with a downloadType other than `audio`
and `video` and an empty descriptor sequence, `selectFormat` evaluates
`&video.Formats[0]` and panics with an index-out-of-range error instead
of returning a descriptor or NotFound. -/
theorem selectFormat_panics_cex :
    selectFormat "best".data [] = SelectResult.panicked
    ∧ SelectResult.panicked ≠ SelectResult.notFound := by
  decide

/-- Claim C9 as amended: `selectFormat` terminates normally with a
descriptor or NotFound in the `audio` and `video` modes; for any other
downloadType it returns the first descriptor when the sequence is
nonempty, and panics (index out of range) on the empty sequence. -/
theorem selectFormat_safety :
    (∀ (dt : List Char) (fs : List Format),
        dt = "audio".data ∨ dt = "video".data → selectFormat dt fs ≠ SelectResult.panicked)
    ∧ (∀ (dt : List Char) (f : Format) (rest : List Format),
        dt ≠ "audio".data → dt ≠ "video".data →
        selectFormat dt (f :: rest) = SelectResult.found f)
    ∧ (∀ dt : List Char, dt ≠ "audio".data → dt ≠ "video".data →
        selectFormat dt [] = SelectResult.panicked) := by
  refine ⟨?_, ?_, ?_⟩
  · intro dt fs h
    rcases h with rfl | rfl
    · simp only [selectFormat, if_pos rfl]
      cases selectBestAudioFormat fs <;> simp [optToResult]
    · have hsel : selectFormat "video".data fs = optToResult (selectBestVideoFormat fs) := by
        simp [selectFormat]
      rw [hsel]
      cases selectBestVideoFormat fs <;> simp [optToResult]
  · intro dt f rest h1 h2
    simp only [selectFormat]
    rw [if_neg h1, if_neg h2]
  · intro dt h1 h2
    simp only [selectFormat]
    rw [if_neg h1, if_neg h2]

/-- Witness for `selectFormat_safety` at concrete inputs. -/
theorem selectFormat_safety_witness :
    selectFormat "audio".data [] ≠ SelectResult.panicked
    ∧ selectFormat "best".data [⟨"video/mp4".data, "tiny".data, 0⟩]
      = SelectResult.found ⟨"video/mp4".data, "tiny".data, 0⟩ :=
  ⟨selectFormat_safety.1 "audio".data [] (Or.inl rfl),
   selectFormat_safety.2.1 "best".data ⟨"video/mp4".data, "tiny".data, 0⟩ []
     (by decide) (by decide)⟩

/-! ## Name sanitizer -/

theorem dw_nil_iff {α : Type} (p : α → Bool) (l : List α) :
    l.dropWhile p = [] ↔ l.all p = true := by
  induction l with
  | nil => simp
  | cons a t ih =>
    cases h : p a <;> simp [List.dropWhile_cons, h, ih]

theorem dw_idem {α : Type} (p : α → Bool) (l : List α) :
    (l.dropWhile p).dropWhile p = l.dropWhile p := by
  induction l with
  | nil => rfl
  | cons a t ih =>
    cases h : p a <;> simp [List.dropWhile_cons, h, ih]

theorem dw_append_of_eq_nil {α : Type} (p : α → Bool) (l1 l2 : List α)
    (h : l1.dropWhile p = []) : (l1 ++ l2).dropWhile p = l2.dropWhile p := by
  induction l1 with
  | nil => rfl
  | cons a t ih =>
    cases ha : p a
    · simp [List.dropWhile_cons, ha] at h
    · rw [List.dropWhile_cons] at h
      simp only [ha] at h
      simp [List.dropWhile_cons, ha, ih h]

theorem dw_append_of_ne_nil {α : Type} (p : α → Bool) (l1 l2 : List α)
    (h : l1.dropWhile p ≠ []) : (l1 ++ l2).dropWhile p = l1.dropWhile p ++ l2 := by
  induction l1 with
  | nil => exact absurd rfl h
  | cons a t ih =>
    cases ha : p a
    · simp [List.dropWhile_cons, ha]
    · rw [List.dropWhile_cons] at h
      simp only [ha] at h
      simp [List.dropWhile_cons, ha, ih h]

theorem dwE_nil_iff {α : Type} (p : α → Bool) (l : List α) :
    dropWhileEnd p l = [] ↔ l.all p = true := by
  unfold dropWhileEnd
  rw [List.reverse_eq_nil_iff, dw_nil_iff]
  simp [List.all_eq_true, List.mem_reverse]

theorem dwE_cons_neg {α : Type} (p : α → Bool) (a : α) (t : List α)
    (h : p a = false) : dropWhileEnd p (a :: t) = a :: dropWhileEnd p t := by
  unfold dropWhileEnd
  rw [List.reverse_cons]
  by_cases hn : t.reverse.dropWhile p = []
  · rw [dw_append_of_eq_nil _ _ _ hn, hn]
    simp [List.dropWhile_cons, h]
  · rw [dw_append_of_ne_nil _ _ _ hn]
    simp

theorem dwE_cons_of_ne_nil {α : Type} (p : α → Bool) (a : α) (t : List α)
    (h : dropWhileEnd p t ≠ []) : dropWhileEnd p (a :: t) = a :: dropWhileEnd p t := by
  have hn : t.reverse.dropWhile p ≠ [] := by
    intro hc
    apply h
    unfold dropWhileEnd
    rw [hc]
    rfl
  unfold dropWhileEnd
  rw [List.reverse_cons, dw_append_of_ne_nil _ _ _ hn]
  simp

theorem dw_dwE_comm {α : Type} (p : α → Bool) (l : List α) :
    (dropWhileEnd p l).dropWhile p = dropWhileEnd p (l.dropWhile p) := by
  induction l with
  | nil => rfl
  | cons a t ih =>
    cases h : p a
    · have e2 : (a :: t).dropWhile p = a :: t := by simp [List.dropWhile_cons, h]
      rw [dwE_cons_neg _ _ _ h, e2, dwE_cons_neg _ _ _ h]
      simp [List.dropWhile_cons, h]
    · by_cases hn : dropWhileEnd p t = []
      · have hall : t.all p = true := (dwE_nil_iff p t).mp hn
        have h1 : dropWhileEnd p (a :: t) = [] := by
          rw [dwE_nil_iff]
          simp [h, hall]
        have h2 : t.dropWhile p = [] := (dw_nil_iff p t).mpr hall
        rw [h1]
        simp only [List.dropWhile_cons, h, List.dropWhile_nil, h2]
        rfl
      · rw [dwE_cons_of_ne_nil _ _ _ hn]
        simp only [List.dropWhile_cons, h]
        exact ih

theorem dwE_idem {α : Type} (p : α → Bool) (l : List α) :
    dropWhileEnd p (dropWhileEnd p l) = dropWhileEnd p l := by
  unfold dropWhileEnd
  rw [List.reverse_reverse, dw_idem]

theorem trim_trim (l : List Char) : trimSpace (trimSpace l) = trimSpace l := by
  unfold trimSpace
  rw [dw_dwE_comm, dw_idem, dwE_idem]

theorem all_takeWhile {α : Type} (p : α → Bool) (l : List α) :
    (l.takeWhile p).all p = true := by
  induction l with
  | nil => rfl
  | cons a t ih =>
    cases h : p a <;> simp [List.takeWhile_cons, h, ih]

theorem all_of_all_dropWhile {α : Type} (p : α → Bool) (l : List α)
    (h : (l.dropWhile p).all p = true) : l.all p = true := by
  have h2 : (l.takeWhile p ++ l.dropWhile p).all p = true := by
    rw [List.all_append]
    simp [all_takeWhile, h]
  rwa [List.takeWhile_append_dropWhile] at h2

theorem trim_nil_iff (l : List Char) :
    trimSpace l = [] ↔ l.all goIsSpace = true := by
  unfold trimSpace
  rw [dwE_nil_iff]
  constructor
  · exact all_of_all_dropWhile _ _
  · intro h
    rw [(dw_nil_iff _ _).mpr h]
    rfl

theorem mem_of_mem_dropWhile {α : Type} (p : α → Bool) (l : List α) {x : α}
    (h : x ∈ l.dropWhile p) : x ∈ l := by
  induction l with
  | nil => simp at h
  | cons a t ih =>
    rw [List.dropWhile_cons] at h
    cases ha : p a
    · simpa [ha] using h
    · simp only [ha] at h
      exact List.mem_cons_of_mem a (ih h)

theorem mem_of_mem_trim (l : List Char) {x : Char}
    (h : x ∈ trimSpace l) : x ∈ l := by
  unfold trimSpace dropWhileEnd at h
  rw [List.mem_reverse] at h
  have h1 := mem_of_mem_dropWhile _ _ h
  rw [List.mem_reverse] at h1
  exact mem_of_mem_dropWhile _ _ h1

theorem mem_of_mem_take {α : Type} (n : Nat) (l : List α) {x : α}
    (h : x ∈ l.take n) : x ∈ l := by
  induction l generalizing n with
  | nil => simp at h
  | cons a t ih =>
    cases n with
    | zero => simp at h
    | succ m =>
      rw [List.take_succ_cons] at h
      rcases List.mem_cons.mp h with rfl | h2
      · exact List.mem_cons_self x t
      · exact List.mem_cons_of_mem a (ih m h2)

theorem length_dw_le {α : Type} (p : α → Bool) (l : List α) :
    (l.dropWhile p).length ≤ l.length := by
  induction l with
  | nil => simp
  | cons a t ih =>
    rw [List.dropWhile_cons]
    cases h : p a <;> simp [h]
    omega

theorem length_trim_le (l : List Char) : (trimSpace l).length ≤ l.length := by
  unfold trimSpace dropWhileEnd
  rw [List.length_reverse]
  calc ((l.dropWhile goIsSpace).reverse.dropWhile goIsSpace).length
      ≤ (l.dropWhile goIsSpace).reverse.length := length_dw_le _ _
    _ = (l.dropWhile goIsSpace).length := List.length_reverse _
    _ ≤ l.length := length_dw_le _ _

theorem map_fixed {α : Type} (f : α → α) (l : List α)
    (h : ∀ x ∈ l, f x = x) : l.map f = l := by
  induction l with
  | nil => rfl
  | cons a t ih =>
    rw [List.map_cons, h a (List.mem_cons_self a t),
      ih (fun x hx => h x (List.mem_cons_of_mem a hx))]

theorem substIn_underscore (l : List Char) : substIn l '_' = '_' := by
  by_cases h : '_' ∈ l <;> simp [substIn, h]

theorem substIn_cons (a : Char) (l : List Char) (c : Char) :
    substIn l (if c = a then '_' else c) = substIn (a :: l) c := by
  by_cases hca : c = a
  · subst hca
    simp [substIn_underscore, substIn, List.mem_cons]
  · simp [substIn, hca, List.mem_cons]

theorem foldl_replace (l : List Char) (s : List Char) :
    List.foldl replaceAllChar s l = s.map (substIn l) := by
  induction l generalizing s with
  | nil =>
    simp only [List.foldl_nil]
    have : ∀ c, substIn ([] : List Char) c = c := by
      intro c; simp [substIn]
    calc s = s.map id := (List.map_id s).symm
      _ = s.map (substIn []) := by
          apply List.map_congr_left
          intro a _
          rw [this a]
          rfl
  | cons a l ih =>
    rw [List.foldl_cons, ih]
    show (s.map fun c => if c = a then '_' else c).map (substIn l) = _
    rw [List.map_map]
    apply List.map_congr_left
    intro c _
    exact substIn_cons a l c

theorem replaceInvalid_eq_map (s : List Char) : replaceInvalid s = s.map substChar :=
  foldl_replace invalidChars s

theorem goIsSpace_invalid (c : Char) (h : c ∈ invalidChars) : goIsSpace c = false := by
  simp [invalidChars] at h
  rcases h with rfl | rfl | rfl | rfl | rfl | rfl | rfl | rfl | rfl <;> decide

theorem substChar_fix (c : Char) : substChar (substChar c) = substChar c := by
  by_cases h : c ∈ invalidChars
  · simp only [substChar, substIn, if_pos h]
    rw [if_neg (by decide)]
  · simp [substChar, substIn, h]

theorem goIsSpace_substChar (c : Char) : goIsSpace (substChar c) = goIsSpace c := by
  by_cases h : c ∈ invalidChars
  · simp only [substChar, substIn, if_pos h]
    rw [goIsSpace_invalid c h]
    decide
  · simp [substChar, substIn, h]

theorem truncate100_eq_take (s : List Char) : truncate100 s = s.take 100 := by
  unfold truncate100
  by_cases h : s.length > 100
  · rw [if_pos h]
  · rw [if_neg h, List.take_of_length_le (by omega)]

theorem length_truncate_le (s : List Char) : (truncate100 s).length ≤ 100 := by
  rw [truncate100_eq_take, List.length_take]
  omega

/-- Claim C7, counterexample: a 102-character title made of 100 spaces
followed by `"ab"` is neither empty nor whitespace-only, yet
`sanitizeFileName` truncates it to its first 100 characters (all
spaces) and the final trim leaves the empty string. -/
theorem sanitizeFileName_empty_cex :
    sanitizeFileName longSpaces = [] ∧ longSpaces ≠ []
    ∧ longSpaces.all goIsSpace = false := by
  decide

/-- Claim C7 as amended: sanitisation replaces each occurrence of the
nine invalid characters by `'_'` pointwise (order-preserving), then
truncates to at most 100 characters, then trims surrounding white
space; `sanitize "a/b:c*d?" = "a_b_c_d_"`; a 150-character input is
exactly 100 characters long after the truncation stage; and the output
is empty exactly when the first 100 characters of the input (all of it,
if shorter) are white space — not only when the whole input is empty or
whitespace-only. -/
theorem sanitizeFileName_spec :
    (∀ s : List Char, replaceInvalid s = s.map substChar)
    ∧ (∀ s : List Char, sanitizeFileName s = trimSpace (truncate100 (replaceInvalid s)))
    ∧ sanitizeFileName "a/b:c*d?".data = "a_b_c_d_".data
    ∧ (∀ s : List Char, s.length = 150 → (truncate100 (replaceInvalid s)).length = 100)
    ∧ (∀ s : List Char, sanitizeFileName s = [] ↔ (s.take 100).all goIsSpace = true) := by
  refine ⟨replaceInvalid_eq_map, fun s => rfl, by decide, ?_, ?_⟩
  · intro s h
    rw [truncate100_eq_take, replaceInvalid_eq_map]
    simp [List.length_take, h]
  · intro s
    have h1 : sanitizeFileName s = trimSpace ((s.take 100).map substChar) := by
      show trimSpace (truncate100 (replaceInvalid s)) = _
      rw [truncate100_eq_take, replaceInvalid_eq_map, List.map_take]
    rw [h1, trim_nil_iff, List.all_map]
    have h2 : (goIsSpace ∘ substChar) = goIsSpace := funext goIsSpace_substChar
    rw [h2]

/-- Witness for `sanitizeFileName_spec` on a concrete 150-character
input. -/
theorem sanitizeFileName_spec_witness :
    (truncate100 (replaceInvalid (List.replicate 150 'x'))).length = 100 :=
  sanitizeFileName_spec.2.2.2.1 (List.replicate 150 'x') (by simp)

/-- Claim C8: `sanitizeFileName` is a pure total function and is
idempotent — sanitising an already-sanitised string returns it
unchanged. -/
theorem sanitizeFileName_idempotent :
    ∀ s : List Char, sanitizeFileName (sanitizeFileName s) = sanitizeFileName s := by
  intro s
  have hfix : ∀ x ∈ sanitizeFileName s, substChar x = x := by
    intro x hx
    have hx1 : x ∈ truncate100 (replaceInvalid s) := mem_of_mem_trim _ hx
    rw [truncate100_eq_take] at hx1
    have hx2 : x ∈ replaceInvalid s := mem_of_mem_take _ _ hx1
    rw [replaceInvalid_eq_map] at hx2
    obtain ⟨c, _, hcx⟩ := List.mem_map.mp hx2
    rw [← hcx]
    exact substChar_fix c
  have h1 : replaceInvalid (sanitizeFileName s) = sanitizeFileName s := by
    rw [replaceInvalid_eq_map]
    exact map_fixed _ _ hfix
  have h2 : (sanitizeFileName s).length ≤ 100 :=
    le_trans (length_trim_le _) (length_truncate_le _)
  have h3 : truncate100 (sanitizeFileName s) = sanitizeFileName s := by
    unfold truncate100
    rw [if_neg (by omega)]
  show trimSpace (truncate100 (replaceInvalid (sanitizeFileName s))) = sanitizeFileName s
  rw [h1, h3]
  exact trim_trim _

/-! ## CLI parsing and startup validation -/

theorem parseArgs_parallel (s : List Char) (n : Int) (h : goAtoi s = some n) :
    parseArgs ["-p".data, s] defaultConfig
      = ⟨"./downloads".data, "video".data, [], n⟩ := by
  simp only [parseArgs]
  rw [if_neg (by decide), if_neg (by decide), if_pos (by decide), h]
  rfl

/-- Claim C3, counterexample: with `--parallel 0` the startup phase of
`main` reports no error at all — only the download type is validated —
and the program proceeds into `DownloadPlaylist` with `Parallel = 0`,
the size the admission gate is then created with. -/
theorem startup_nonpositive_parallel_cex :
    startup ["prog".data, "url".data, "-p".data, "0".data]
      = StartupResult.proceed ⟨"./downloads".data, "video".data, [], 0⟩
    ∧ DownloadConfig.Parallel ⟨"./downloads".data, "video".data, [], 0⟩ < 1 := by
  decide

/-- Claim C3 as amended: the program performs no validation of the
worker-pool size.  Any `--parallel` value that `Atoi` parses — zero and
negative values included — is accepted into the configuration unchanged
and the startup phase proceeds to the download layer, which creates the
admission gate with that non-positive size (capacity 0 then blocks the
first admission forever; `OrchReach` with `P = 0` never launches an
item, see `exitCode_isolation`'s completion part for `P ≥ 1`). -/
theorem startup_accepts_any_parallel (s : List Char) (n : Int) (h : goAtoi s = some n) :
    startup ["prog".data, "url".data, "-p".data, s]
      = StartupResult.proceed ⟨"./downloads".data, "video".data, [], n⟩ := by
  have hp := parseArgs_parallel s n h
  unfold startup
  rw [if_neg (by simp)]
  simp only [List.drop_succ_cons, List.drop_zero]
  rw [hp, if_neg (by simp)]

/-- Witness for `startup_accepts_any_parallel` at a negative value. -/
theorem startup_accepts_any_parallel_witness :
    startup ["prog".data, "url".data, "-p".data, "-2".data]
      = StartupResult.proceed ⟨"./downloads".data, "video".data, [], -2⟩ :=
  startup_accepts_any_parallel "-2".data (-2) (by decide)

/-! ## Admission gate -/

theorem orch_inv (P N : Nat) (s : OrchState) (h : OrchReach P N s) :
    s.finished ≤ s.launched ∧ s.launched ≤ N ∧ s.launched - s.finished ≤ P := by
  induction h with
  | refl => refine ⟨?_, ?_, ?_⟩ <;> dsimp only <;> omega
  | tail hr step ih =>
    obtain ⟨i1, i2, i3⟩ := ih
    cases step with
    | launch hN hP => refine ⟨?_, ?_, ?_⟩ <;> dsimp only <;> omega
    | finish hf => refine ⟨?_, ?_, ?_⟩ <;> dsimp only <;> omega

/-- Claim C6: for every pool size `P ≥ 1` and item count `N`, in every
reachable state of the orchestration at most `P` items are
simultaneously inside the item pipeline (holding an admission-gate slot
acquired at line 61 and not yet released at line 65). -/
theorem admission_gate_bound (P N : Nat) (_hP : 1 ≤ P) (s : OrchState)
    (h : OrchReach P N s) : s.launched - s.finished ≤ P :=
  (orch_inv P N s h).2.2

/-- Witness for `admission_gate_bound`: the claim's instance `P = 2`,
`N = 10`, at the reachable state with two admitted items, one
finished. -/
theorem admission_gate_bound_witness :
    OrchState.launched ⟨2, 1⟩ - OrchState.finished ⟨2, 1⟩ ≤ 2 :=
  admission_gate_bound 2 10 (by decide) ⟨2, 1⟩
    (Relation.ReflTransGen.tail
      (Relation.ReflTransGen.tail
        (Relation.ReflTransGen.single (OrchStep.launch ⟨0, 0⟩ (by decide) (by decide)))
        (OrchStep.launch ⟨1, 0⟩ (by decide) (by decide)))
      (OrchStep.finish ⟨2, 0⟩ (by decide)))

theorem orch_run_to_completion (P N : Nat) (hP : 1 ≤ P) :
    ∀ k : Nat, k ≤ N → OrchReach P N ⟨k, k⟩ := by
  intro k
  induction k with
  | zero => intro _; exact Relation.ReflTransGen.refl
  | succ m ih =>
    intro hk
    have h1 : OrchReach P N ⟨m, m⟩ := ih (by omega)
    have s1 : OrchStep P N ⟨m, m⟩ ⟨m + 1, m⟩ :=
      OrchStep.launch ⟨m, m⟩ (by dsimp only; omega) (by dsimp only; omega)
    have s2 : OrchStep P N ⟨m + 1, m⟩ ⟨m + 1, m + 1⟩ :=
      OrchStep.finish ⟨m + 1, m⟩ (by dsimp only; omega)
    exact Relation.ReflTransGen.tail (Relation.ReflTransGen.tail h1 s1) s2

/-! ## Exit codes and failure isolation -/

/-- Claim C10: the per-item results never influence the process exit
code; the exit code is 0 exactly when the playlist argument is present,
the download type is valid (startup proceeds), the playlist resolves
and the output directory is created — per-item failures leave it 0; and
for any pool size `P ≥ 1` every one of the `N` items is launched and
finished (the orchestration completes all items whatever the per-item
outcomes, which do not gate any transition). -/
theorem exitCode_isolation :
    (∀ (argv : List (List Char)) (pres : Except (List Char) (List Video))
        (mk : Bool) (r1 r2 : Video → Bool),
        mainExit argv pres mk r1 = mainExit argv pres mk r2)
    ∧ (∀ (argv : List (List Char)) (pres : Except (List Char) (List Video))
        (mk : Bool) (r : Video → Bool),
        mainExit argv pres mk r = 0 ↔
          ((∃ c, startup argv = StartupResult.proceed c)
            ∧ (∃ vids, pres = Except.ok vids) ∧ mk = true))
    ∧ (∀ P N : Nat, 1 ≤ P → OrchReach P N ⟨N, N⟩) := by
  refine ⟨?_, ?_, ?_⟩
  · intro argv pres mk r1 r2
    cases startup argv <;> cases pres <;> cases mk <;>
      simp [mainExit, downloadPlaylistModel]
  · intro argv pres mk r
    cases hs : startup argv <;> cases pres <;> cases mk <;>
      simp [mainExit, downloadPlaylistModel, hs]
  · intro P N hP
    exact orch_run_to_completion P N hP N (Nat.le_refl N)

/-- Witness for `exitCode_isolation`: with `P = 1` a three-item run
completes all three items. -/
theorem exitCode_isolation_witness : OrchReach 1 3 ⟨3, 3⟩ :=
  exitCode_isolation.2.2 1 3 (by decide)

/-! ## The unsynchronized append to `failedDownloads` -/

theorem race_reach_mid : RReach 2 titleA titleB raceMid :=
  Relation.ReflTransGen.tail
    (Relation.ReflTransGen.tail
      (Relation.ReflTransGen.tail
        (Relation.ReflTransGen.single (RStep.admit1 raceInit rfl (by decide)))
        (RStep.admit2 ⟨1, [], ⟨1, []⟩, ⟨0, []⟩⟩ rfl (by decide) (by decide)))
      (RStep.read1 ⟨2, [], ⟨1, []⟩, ⟨1, []⟩⟩ rfl))
    (RStep.read2 ⟨2, [], ⟨2, []⟩, ⟨1, []⟩⟩ rfl)

theorem race_reach_final : RReach 2 titleA titleB raceFinal :=
  Relation.ReflTransGen.tail
    (Relation.ReflTransGen.tail
      (Relation.ReflTransGen.tail
        (Relation.ReflTransGen.tail race_reach_mid (RStep.write1 raceMid rfl))
        (RStep.write2 ⟨2, [titleA], ⟨3, []⟩, ⟨2, []⟩⟩ rfl))
      (RStep.release1 ⟨2, [titleB], ⟨3, []⟩, ⟨3, []⟩⟩ rfl))
    (RStep.release2 ⟨1, [titleB], ⟨4, []⟩, ⟨3, []⟩⟩ rfl)

/-- Claim C5 (code bug): the append at line 75 runs under no lock.  With
`Parallel = 2` and both downloads failing, the run reaches a state in
which both workers are inside the append simultaneously (both have read
the shared slice, neither has written), and from there a completed run
in which worker 2's write overwrote worker 1's: `failedDownloads` ends
as `[titleB]` — one update lost, mutual exclusion violated. -/
theorem failedDownloads_append_race :
    RReach 2 titleA titleB raceMid
    ∧ RState.w1 raceMid = ⟨2, []⟩ ∧ RState.w2 raceMid = ⟨2, []⟩
    ∧ RReach 2 titleA titleB raceFinal
    ∧ WState.pc (RState.w1 raceFinal) = 4 ∧ WState.pc (RState.w2 raceFinal) = 4
    ∧ RState.shared raceFinal = [titleB] :=
  ⟨race_reach_mid, rfl, rfl, race_reach_final, rfl, rfl, rfl⟩

/-- Claim C4 (code bug): in the completed racy run `raceFinal` both
items failed, yet the summary computed by lines 86-95 from the shared
slice reports `total 2, successful 1, failed 1` with only `titleB`
listed: worker 1's outcome was dropped, so the summary counts are not
those the claim states. -/
theorem downloadPlaylist_lost_outcome :
    RReach 2 titleA titleB raceFinal
    ∧ WState.pc (RState.w1 raceFinal) = 4 ∧ WState.pc (RState.w2 raceFinal) = 4
    ∧ summaryOfRun 2 (RState.shared raceFinal) = ⟨2, 1, 1, [titleB]⟩
    ∧ Summary.failed (summaryOfRun 2 (RState.shared raceFinal)) ≠ 2 :=
  ⟨race_reach_final, rfl, rfl, by decide, by decide⟩

end YTDL

